import Mathlib

/-!
Verification of the LiveServerPlus development server (Python) against its
natural-language specification.  Each Python function that a claim depends on
is shallowly embedded as an executable Lean definition; machine integers are
modelled as Nat with explicit reduction modulo 2^32 where the source relies on
32-bit overflow, byte strings as List Nat, and text as String / List Char.
-/

namespace LSP

/-! ### Basic character and string helpers

Python string primitives used by the sources: str.lower (ASCII range is all
the sources need), substring containment (the in operator), strip and lstrip,
startswith and endswith. -/

/-- ASCII lower-casing of one character, as used by str.lower on the inputs
appearing in the claims (header names and file extensions are ASCII). -/
def asciiLower (c : Char) : Char :=
  if 'A' ≤ c ∧ c ≤ 'Z' then Char.ofNat (c.toNat + 32) else c

/-- Python s.lower() at the list-of-characters level. -/
def lowerStr (s : List Char) : List Char := s.map asciiLower

/-- Containment of one character list inside another (contiguous). -/
def listHasSub (pat : List Char) : List Char → Bool
  | [] => pat.isEmpty
  | c :: rest => pat.isPrefixOf (c :: rest) || listHasSub pat rest

/-- Python substring test: pat in s. -/
def strContains (s pat : String) : Bool := listHasSub pat.toList s.toList

/-- Python s.lstrip(cs): drop leading characters belonging to cs. -/
def pyLstrip (cs : List Char) (s : List Char) : List Char :=
  s.dropWhile (fun c => cs.contains c)

/-- Python s.strip(): drop whitespace at both ends. -/
def pyStrip (s : List Char) : List Char :=
  ((s.dropWhile Char.isWhitespace).reverse.dropWhile Char.isWhitespace).reverse

/-- Value of a hexadecimal digit, if the character is one. -/
def hexDigit? (c : Char) : Option Nat :=
  if '0' ≤ c ∧ c ≤ '9' then some (c.toNat - '0'.toNat)
  else if 'a' ≤ c ∧ c ≤ 'f' then some (c.toNat - 'a'.toNat + 10)
  else if 'A' ≤ c ∧ c ≤ 'F' then some (c.toNat - 'A'.toNat + 10)
  else none

/-- Percent-decoding at the character level, embedding urllib.parse.unquote.
A valid escape %XX becomes the character with code XX; malformed escapes are
kept verbatim, as unquote keeps them.  (Python decodes the resulting byte
string as UTF-8; for the ASCII bytes that all pattern checks in the sources
look at, the two views agree, and bytes at and above 0x80 can never produce
the ASCII characters those checks search for.) -/
def pyUnquoteList : List Char → List Char
  | [] => []
  | '%' :: h :: l :: rest =>
    match hexDigit? h, hexDigit? l with
    | some hv, some lv => Char.ofNat (hv * 16 + lv) :: pyUnquoteList rest
    | _, _ => '%' :: pyUnquoteList (h :: l :: rest)
  | c :: rest => c :: pyUnquoteList rest

/-- Percent-decoding on strings. -/
def pyUnquote (s : String) : String := String.mk (pyUnquoteList s.toList)

/-! ### Reload broadcaster: message selection and debounce
Embeds WebSocketHandler.notifyClients and WebSocketHandler.flushPendingMessage
(liveserverplus_lib/websocket.py, lines 95-130). -/

/-- Python file_path.lower().endswith(".css"). -/
def endsCss (path : String) : Bool :=
  ".css".toList.isSuffixOf (lowerStr path.toList)

/-- Message chosen by notifyClients for one changed path (websocket.py lines
101-105).  Note the source sends the literal string "refreshcss". -/
def selectMessage (fullReload : Bool) (path : String) : String :=
  if fullReload then "reload"
  else if endsCss path then "refreshcss" else "reload"

/-- Debounce state of the WebSocketHandler: the coalesced pending message and
the absolute time (ms) at which the pending timer fires, if one is armed. -/
structure WsState where
  pending : Option String
  deadline : Option Nat
  deriving Repr, DecidableEq

/-- Initial broadcaster state: no pending message, no timer. -/
def WsState.init : WsState := ⟨none, none⟩

/-- One call to notifyClients at absolute time now (ms).  Returns the new
state and the list of (time, message) broadcasts it performs immediately.
With a non-positive wait the message is broadcast at once and the pending
state is untouched; otherwise the pending message is upgraded (a reload
always wins, and nothing ever overwrites a pending reload), the running
timer is cancelled, and a fresh timer is armed waitMs from now. -/
def notifyClients (fullReload : Bool) (waitMs : Nat) (st : WsState)
    (now : Nat) (path : String) : WsState × List (Nat × String) :=
  let message := selectMessage fullReload path
  if waitMs = 0 then (st, [(now, message)])
  else
    let pending :=
      if message = "reload" then some "reload"
      else if st.pending ≠ some "reload" then some message
      else st.pending
    ({ pending := pending, deadline := some (now + waitMs) }, [])

/-- Timer callback flushPendingMessage: broadcast the coalesced message
(defaulting to reload) and clear all pending state. -/
def flushPendingMessage (st : WsState) (now : Nat) :
    WsState × List (Nat × String) :=
  (WsState.init, [(now, st.pending.getD "reload")])

/-- Run a timed sequence of file-change events through the broadcaster.
Before an event at time t is delivered to notifyClients, an armed timer
whose deadline lies at or before t fires; after the last event the
remaining timer fires at its deadline.  Returns every broadcast with its
send time. -/
def runEvents (fullReload : Bool) (waitMs : Nat) :
    WsState → List (Nat × String) → List (Nat × String)
  | st, [] =>
    match st.deadline with
    | some d => (flushPendingMessage st d).2
    | none => []
  | st, (t, path) :: rest =>
    match st.deadline with
    | some d =>
      if d ≤ t then
        let f := flushPendingMessage st d
        let n := notifyClients fullReload waitMs f.1 t path
        f.2 ++ n.2 ++ runEvents fullReload waitMs n.1 rest
      else
        let n := notifyClients fullReload waitMs st t path
        n.2 ++ runEvents fullReload waitMs n.1 rest
    | none =>
      let n := notifyClients fullReload waitMs st t path
      n.2 ++ runEvents fullReload waitMs n.1 rest

/-! ### Path model

Paths are POSIX-style strings.  Canonicalization (pathlib.Path.resolve,
and the filesystem identification done by os.path.isdir and os.path.isfile)
is modelled lexically over a symlink-free filesystem: "." and ".." segments
are resolved against the textual parent.  Calls whose behaviour depends on an
arbitrary canonicalizer take it as an explicit Resolver argument. -/

/-- Split a character list at a separator character. -/
def splitChar (sep : Char) (s : List Char) : List (List Char) :=
  s.foldr
    (fun c acc =>
      match acc with
      | [] => if c = sep then [[], []] else [[c]]
      | cur :: rest => if c = sep then [] :: cur :: rest else (c :: cur) :: rest)
    [[]]

/-- Prefix test on strings through their character lists. -/
def strStartsWith (s pre : String) : Bool := pre.toList.isPrefixOf s.toList

/-- Suffix test on strings through their character lists. -/
def strEndsWith (s post : String) : Bool := post.toList.isSuffixOf s.toList

/-- Interleave a separator between the strings of a list. -/
def joinWith (sep : String) : List String → String
  | [] => ""
  | x :: xs => xs.foldl (fun a b => a ++ sep ++ b) x

/-- Non-empty path segments of a POSIX path string. -/
def pathParts (p : String) : List String :=
  ((splitChar '/' p.toList).map String.mk).filter (fun s => s ≠ "")

/-- Lexical resolution of "." and ".." segments (root-anchored: ".." at the
root stays at the root, as realpath does for absolute paths). -/
def normSegs (segs : List String) : List String :=
  segs.foldl
    (fun acc s =>
      if s = "." then acc
      else if s = ".." then acc.dropLast
      else acc ++ [s])
    []

/-- Canonical form of an absolute path in the symlink-free model. -/
def normalizePath (p : String) : String :=
  "/" ++ joinWith "/" (normSegs (pathParts p))

/-- Embedding of os.path.join (POSIX) for the shapes the sources build:
an absolute second argument replaces the first. -/
def osJoin (folder rel : String) : String :=
  if strStartsWith rel "/" then rel
  else if strEndsWith folder "/" then folder ++ rel
  else folder ++ "/" ++ rel

/-- An abstract canonicalizer standing for pathlib.Path.resolve on the
machine serving the files (it may follow symlinks; the lexical resolver
below is the symlink-free instance used for concrete evaluation). -/
structure Resolver where
  resolve : String → String

/-- The symlink-free canonicalizer. -/
def lexResolver : Resolver := ⟨normalizePath⟩

/-- Embedding of pathlib PurePath.relative_to succeeding: the parts of the
base are a leading run of the parts of the full path (equality included). -/
def isRelativeTo (base full : String) : Bool :=
  (pathParts base).isPrefixOf (pathParts full)

/-- The NUL character as a one-character string (the Python literal pattern
in the source suspicious-pattern lists). -/
def nulStr : String := String.mk [Char.ofNat 0]

/-! ### validate_and_secure_path
Embeds validate_and_secure_path (liveserverplus_lib/path_utils.py, lines
10-58). -/

/-- Suspicious-pattern test from path_utils.py line 31: any of "..", "//",
a doubled backslash, or NUL occurring in the decoded path. -/
def hasSuspiciousPattern (s : String) : Bool :=
  strContains s ".." || strContains s "//" ||
  strContains s "\\\\" || strContains s nulStr

/-- The cleaned relative path validate_and_secure_path joins with the base
folder: percent-decode, then strip leading slashes and backslashes. -/
def cleanRequestPath (p : String) : String :=
  String.mk (pyLstrip ['\\'] (pyLstrip ['/'] (pyUnquote p).toList))

/-- Embedding of validate_and_secure_path(base_folder, requested_path):
reject empty input, percent-decode, reject suspicious patterns, strip
leading slashes and backslashes, canonicalize the join against the
canonicalized base, and accept only when the result is equal to or nested
under the base; the accepted value is the exact canonical path. -/
def validate_and_secure_path (os : Resolver) (base_folder requested_path : String) :
    Option String :=
  if requested_path = "" then none
  else
    let clean := pyUnquote requested_path
    if hasSuspiciousPattern clean then none
    else
      let stripped := cleanRequestPath requested_path
      let base_path := os.resolve base_folder
      let full_path := os.resolve (osJoin base_folder stripped)
      if isRelativeTo base_path full_path then some full_path else none

/-! ### File serving
Embeds FileServer.serveFile and the validation step of FileServer.serveFile
helpers (liveserverplus_lib/file_server.py, lines 23-119) and
RequestHandler.handleGetRequest (request_handler.py, lines 146-160) over a
finite filesystem. -/

/-- Finite symlink-free filesystem: canonical absolute paths of the
directories and files that exist. -/
structure Fs where
  dirs : List String
  files : List String

/-- Embedding of os.path.isdir in the model. -/
def Fs.isdir (fs : Fs) (p : String) : Bool := fs.dirs.contains (normalizePath p)

/-- Embedding of os.path.isfile in the model. -/
def Fs.isfile (fs : Fs) (p : String) : Bool := fs.files.contains (normalizePath p)

/-- Outcome of FileServer.serveFile, keeping the data each branch hands to
its collaborator: the directory-listing branch records the raw directory
path passed to DirectoryListing.generate_listing, and the file branch
records the validated path that every subsequent filesystem read uses. -/
inductive ServeResult where
  | directoryListing (dirPath urlPath rootPath : String)
  | fileResponse (safePath relPath folder : String)
  | forbidden
  | notServed
  deriving Repr, DecidableEq

/-- Embedding of FileServer.serveFile file branch (its helper validates the
relative path against the folder before any read and replaces the joined
path with the validated one; a validation failure is a 403). -/
def serveFileInner (_fullPath relPath folder : String) : ServeResult :=
  match validate_and_secure_path lexResolver folder relPath with
  | none => .forbidden
  | some safe => .fileResponse safe relPath folder

/-- First-match iteration of serveFile over the served folders: a directory
hit is listed directly, a file hit goes through validation. -/
def serveFileLoop (fs : Fs) (relPath urlPath : String) : List String → ServeResult
  | [] => .notServed
  | folder :: rest =>
    let fullPath := osJoin folder relPath
    if fs.isdir fullPath then .directoryListing fullPath urlPath folder
    else if fs.isfile fullPath then serveFileInner fullPath relPath folder
    else serveFileLoop fs relPath urlPath rest

/-- Embedding of FileServer.serveFile: the index.html short-circuit for "/"
and "/index.html", then percent-decoding of the stripped path and the
first-match folder loop. -/
def serveFile (fs : Fs) (path : String) (folders : List String) : ServeResult :=
  let indexHit :=
    if path = "/" ∨ path = "/index.html" then
      folders.find? (fun folder => fs.isfile (osJoin folder "index.html"))
    else none
  match indexHit with
  | some folder => serveFileInner (osJoin folder "index.html") "index.html" folder
  | none =>
    let relPath := pyUnquote (String.mk (pyLstrip ['/'] path.toList))
    serveFileLoop fs relPath path folders

/-- Raw-path pattern check of RequestHandler.handleGetRequest (line 151):
performed on the request path before percent-decoding. -/
def containsBadRaw (path : String) : Bool :=
  strContains path ".." || strContains path "//" ||
  strContains path "\\\\" || strContains path nulStr

/-- Outcome of RequestHandler.handleGetRequest. -/
inductive GetResult where
  | badRequest
  | served (r : ServeResult)
  | notFoundPage
  deriving Repr, DecidableEq

/-- Embedding of RequestHandler.handleGetRequest: the raw-pattern check,
then serveFile; a False return falls through to the 404 page. -/
def handleGetRequest (fs : Fs) (folders : List String) (path : String) : GetResult :=
  if containsBadRaw path then .badRequest
  else
    match serveFile fs path folders with
    | .notServed => .notFoundPage
    | r => .served r

/-! ### Byte-level helpers shared by frame building and parsing -/

/-- Big-endian byte packing of a value into k bytes (struct.pack with a
fixed-width unsigned big-endian format). -/
def packBE : Nat → Nat → List Nat
  | 0, _ => []
  | k + 1, v => packBE k (v / 256) ++ [v % 256]

/-- Big-endian byte unpacking (struct.unpack of an unsigned big-endian
integer). -/
def unpackBE (l : List Nat) : Nat := l.foldl (fun a b => a * 256 + b) 0

/-- UTF-8 encoding of one character. -/
def utf8Char (c : Char) : List Nat :=
  let n := c.toNat
  if n < 0x80 then [n]
  else if n < 0x800 then [0xC0 ||| (n >>> 6), 0x80 ||| (n &&& 0x3F)]
  else if n < 0x10000 then
    [0xE0 ||| (n >>> 12), 0x80 ||| ((n >>> 6) &&& 0x3F), 0x80 ||| (n &&& 0x3F)]
  else
    [0xF0 ||| (n >>> 18), 0x80 ||| ((n >>> 12) &&& 0x3F),
     0x80 ||| ((n >>> 6) &&& 0x3F), 0x80 ||| (n &&& 0x3F)]

/-- UTF-8 encoding of a string (Python str.encode). -/
def utf8Encode (s : String) : List Nat := s.toList.flatMap utf8Char

/-- Continuation-byte test for the decoder. -/
def utf8IsCont (b : Nat) : Bool := 0x80 ≤ b && b < 0xC0

/-- UTF-8 decoding that drops undecodable bytes, for bytes.decode with
errors ignored; the fuel argument bounds the recursion by the input
length. -/
def utf8DecodeGo : Nat → List Nat → List Char
  | 0, _ => []
  | _, [] => []
  | fuel + 1, b :: rest =>
    if b < 0x80 then Char.ofNat b :: utf8DecodeGo fuel rest
    else if 0xC2 ≤ b ∧ b < 0xE0 then
      match rest with
      | b2 :: r2 =>
        if utf8IsCont b2 then
          Char.ofNat (((b - 0xC0) <<< 6) ||| (b2 &&& 0x3F)) :: utf8DecodeGo fuel r2
        else utf8DecodeGo fuel rest
      | [] => []
    else if 0xE0 ≤ b ∧ b < 0xF0 then
      match rest with
      | b2 :: b3 :: r3 =>
        if utf8IsCont b2 && utf8IsCont b3 then
          Char.ofNat (((b - 0xE0) <<< 12) ||| ((b2 &&& 0x3F) <<< 6) ||| (b3 &&& 0x3F)) ::
            utf8DecodeGo fuel r3
        else utf8DecodeGo fuel rest
      | _ => []
    else if 0xF0 ≤ b ∧ b < 0xF5 then
      match rest with
      | b2 :: b3 :: b4 :: r4 =>
        if utf8IsCont b2 && utf8IsCont b3 && utf8IsCont b4 then
          Char.ofNat (((b - 0xF0) <<< 18) ||| ((b2 &&& 0x3F) <<< 12) |||
            ((b3 &&& 0x3F) <<< 6) ||| (b4 &&& 0x3F)) :: utf8DecodeGo fuel r4
        else utf8DecodeGo fuel rest
      | _ => []
    else utf8DecodeGo fuel rest

/-- UTF-8 decoding with errors ignored. -/
def utf8DecodeIgnore (bs : List Nat) : String := String.mk (utf8DecodeGo bs.length bs)

/-! ### WebSocket frames
Embeds WebSocketHandler.buildWebSocketFrame, WebSocketHandler.read_message,
WebSocketHandler.recv_exact and WebSocketHandler.build_pong_frame
(liveserverplus_lib/websocket.py, lines 192-311). -/

/-- Payload-length encoding shared by the text-frame and pong-frame
builders: 7-bit inline, 16-bit after the marker 126, 64-bit after 127. -/
def lenEncode (length : Nat) : List Nat :=
  if length ≤ 125 then [length]
  else if length ≤ 65535 then 126 :: packBE 2 length
  else 127 :: packBE 8 length

/-- Byte layout produced by buildWebSocketFrame: FIN plus text opcode, the
length encoding, then the unmasked payload. -/
def frameOfBytes (msgBytes : List Nat) : List Nat :=
  0x81 :: lenEncode msgBytes.length ++ msgBytes

/-- Embedding of buildWebSocketFrame: UTF-8 encode the message and frame
the bytes. -/
def buildWebSocketFrame (message : String) : List Nat :=
  frameOfBytes (utf8Encode message)

/-- Embedding of build_pong_frame: FIN plus pong opcode, the same length
encoding, then the payload. -/
def buildPongFrame (payload : List Nat) : List Nat :=
  0x8A :: lenEncode payload.length ++ payload

/-- Embedding of recv_exact over an incoming byte stream: exactly n bytes
or the failure that read_message treats as connection end. -/
def recvExact (n : Nat) (s : List Nat) : Option (List Nat × List Nat) :=
  if n ≤ s.length then some (s.take n, s.drop n) else none

/-- XOR unmasking of a payload with a 4-byte mask cycling every 4 bytes. -/
def unmaskBytes (mask payload : List Nat) : List Nat :=
  payload.enum.map (fun p => p.2 ^^^ mask.getD (p.1 % 4) 0)

/-- Frame-parsing core of read_message (websocket.py lines 227-258): the
2-byte header, the extended 16-bit or 64-bit length, the optional mask, and
the unmasked payload.  Returns the opcode, the payload bytes, and the
unread remainder of the stream; none is the connection-end result. -/
def readFrameCore (s : List Nat) : Option (Nat × List Nat × List Nat) :=
  match recvExact 2 s with
  | none => none
  | some (header, r1) =>
    let b0 := header.getD 0 0
    let b1 := header.getD 1 0
    let opcode := b0 &&& 0x0F
    let masked := b1 &&& 0x80
    let plen0 := b1 &&& 0x7F
    let extended : Option (Nat × List Nat) :=
      if plen0 = 126 then (recvExact 2 r1).map (fun p => (unpackBE p.1, p.2))
      else if plen0 = 127 then (recvExact 8 r1).map (fun p => (unpackBE p.1, p.2))
      else some (plen0, r1)
    match extended with
    | none => none
    | some (plen, r2) =>
      let maskRead : Option (List Nat × List Nat) :=
        if masked ≠ 0 then recvExact 4 r2 else some ([], r2)
      match maskRead with
      | none => none
      | some (mask, r3) =>
        match recvExact plen r3 with
        | none => none
        | some (payload0, r4) =>
          let payload := if masked ≠ 0 then unmaskBytes mask payload0 else payload0
          some (opcode, payload, r4)

/-- Embedding of read_message: parse one frame, then dispatch on the
opcode.  Close means connection end (none); ping sends back a pong carrying
the same payload and yields the empty-string sentinel; pong and unknown
opcodes yield the sentinel; a text frame yields its decoded payload.  The
second component lists the frames sent back on the socket. -/
def readMessage (s : List Nat) : Option String × List (List Nat) :=
  match readFrameCore s with
  | none => (none, [])
  | some (opcode, payload, _) =>
    if opcode = 0x8 then (none, [])
    else if opcode = 0x9 then (some "", [buildPongFrame payload])
    else if opcode = 0xA then (some "", [])
    else if opcode ≠ 0x1 then (some "", [])
    else (some (utf8DecodeIgnore payload), [])

/-! ### SHA-1 and base64, for the handshake accept key -/

/-- Left rotation within 32 bits. -/
def rotl32 (x k : Nat) : Nat := ((x <<< k) ||| (x >>> (32 - k))) % 4294967296

/-- SHA-1 padding: the 0x80 byte, zeros to 56 mod 64, and the 64-bit
big-endian bit length. -/
def sha1Pad (msg : List Nat) : List Nat :=
  let L := msg.length
  let padLen := (64 + 56 - ((L + 1) % 64)) % 64
  msg ++ [0x80] ++ List.replicate padLen 0 ++ packBE 8 (8 * L)

/-- Split a byte list into 64-byte blocks (fuel-based so that the kernel
can evaluate it; the fuel is the list length, which bounds the number of
blocks). -/
def chunks64Go : Nat → List Nat → List (List Nat)
  | 0, _ => []
  | _, [] => []
  | fuel + 1, l => l.take 64 :: chunks64Go fuel (l.drop 64)

/-- Split a byte list into 64-byte blocks. -/
def chunks64 (l : List Nat) : List (List Nat) := chunks64Go l.length l

/-- The sixteen initial 32-bit message-schedule words of one block. -/
def sha1Words16 (block : List Nat) : Array Nat :=
  (((List.range 16).map (fun i => unpackBE ((block.drop (4 * i)).take 4)))).toArray

/-- Message-schedule extension to eighty words. -/
def sha1Extend : Nat → Array Nat → Array Nat
  | 0, w => w
  | n + 1, w =>
    let x := w.getD (w.size - 3) 0 ^^^ w.getD (w.size - 8) 0 ^^^
             w.getD (w.size - 14) 0 ^^^ w.getD (w.size - 16) 0
    sha1Extend n (w.push (rotl32 x 1))

/-- Round function of SHA-1. -/
def sha1F (t b c d : Nat) : Nat :=
  if t < 20 then (b &&& c) ||| ((b ^^^ 0xFFFFFFFF) &&& d)
  else if t < 40 then b ^^^ c ^^^ d
  else if t < 60 then (b &&& c) ||| (b &&& d) ||| (c &&& d)
  else b ^^^ c ^^^ d

/-- Round constants of SHA-1. -/
def sha1K (t : Nat) : Nat :=
  if t < 20 then 0x5A827999
  else if t < 40 then 0x6ED9EBA1
  else if t < 60 then 0x8F1BBCDC
  else 0xCA62C1D6

/-- Compression of one 64-byte block into the running state. -/
def sha1Block (h : Nat × Nat × Nat × Nat × Nat) (block : List Nat) :
    Nat × Nat × Nat × Nat × Nat :=
  let w := sha1Extend 64 (sha1Words16 block)
  let r := (List.range 80).foldl
    (fun st t =>
      let (a, b, c, d, e) := st
      let temp := (rotl32 a 5 + sha1F t b c d + e + sha1K t + w.getD t 0) % 4294967296
      (temp, a, rotl32 b 30, c, d))
    h
  let (h0, h1, h2, h3, h4) := h
  let (a, b, c, d, e) := r
  ((h0 + a) % 4294967296, (h1 + b) % 4294967296, (h2 + c) % 4294967296,
   (h3 + d) % 4294967296, (h4 + e) % 4294967296)

/-- SHA-1 digest (20 bytes) of a byte string, embedding hashlib.sha1. -/
def sha1 (msg : List Nat) : List Nat :=
  let f := (chunks64 (sha1Pad msg)).foldl sha1Block
    (0x67452301, 0xEFCDAB89, 0x98BADCFE, 0x10325476, 0xC3D2E1F0)
  packBE 4 f.1 ++ packBE 4 f.2.1 ++ packBE 4 f.2.2.1 ++
    packBE 4 f.2.2.2.1 ++ packBE 4 f.2.2.2.2

/-- The base64 alphabet. -/
def base64Alphabet : List Char :=
  "ABCDEFGHIJKLMNOPQRSTUVWXYZabcdefghijklmnopqrstuvwxyz0123456789+/".toList

/-- One base64 digit. -/
def b64c (n : Nat) : Char := base64Alphabet.getD n 'A'

/-- Standard base64 encoding with padding, embedding base64.b64encode. -/
def base64Encode : List Nat → List Char
  | [] => []
  | [a] => [b64c (a >>> 2), b64c ((a &&& 3) <<< 4), '=', '=']
  | [a, b] => [b64c (a >>> 2), b64c (((a &&& 3) <<< 4) ||| (b >>> 4)),
               b64c ((b &&& 15) <<< 2), '=']
  | a :: b :: c :: rest =>
    [b64c (a >>> 2), b64c (((a &&& 3) <<< 4) ||| (b >>> 4)),
     b64c (((b &&& 15) <<< 2) ||| (c >>> 6)), b64c (c &&& 63)] ++ base64Encode rest

/-- Base64 encoding to a string. -/
def base64EncodeStr (bs : List Nat) : String := String.mk (base64Encode bs)

/-! ### WebSocket handshake and connection dispatch
Embeds WebSocketHandler.handleWebSocketUpgrade (websocket.py lines 59-82)
and the upgrade branch of Server.handle_connection (server.py lines
231-246; its snake-case method calls resolve to the handler operations
embedded here). -/

/-- The RFC6455 magic GUID appended to the key. -/
def wsMagic : String := "258EAFA5-E914-47DA-95CA-C5AB0DC85B11"

/-- The accept value: base64 of the SHA-1 digest of key plus magic. -/
def wsAccept (key : String) : String :=
  base64EncodeStr (sha1 (utf8Encode (key ++ wsMagic)))

/-- Header scan of handleWebSocketUpgrade: the first header whose
lower-cased text starts with the key name, taking the part after the first
colon, stripped. -/
def findWsKey (headers : List String) : Option String :=
  match headers.find?
      (fun h => strStartsWith (String.mk (lowerStr h.toList)) "sec-websocket-key:") with
  | none => none
  | some h => some (String.mk (pyStrip ((h.toList.dropWhile (fun c => c ≠ ':')).drop 1)))

/-- The 101 Switching Protocols handshake response text. -/
def upgradeResponse (accept : String) : String :=
  "HTTP/1.1 101 Switching Protocols\r\nUpgrade: websocket\r\nConnection: Upgrade\r\nSec-WebSocket-Accept: " ++
    accept ++ "\r\n\r\n"

/-- Embedding of handleWebSocketUpgrade: none when the key header is
missing or its value empty, otherwise the full handshake response. -/
def handleWebSocketUpgrade (headers : List String) : Option String :=
  match findWsKey headers with
  | none => none
  | some k => if k = "" then none else some (upgradeResponse (wsAccept k))

/-- Upgrade detection of Server.handle_connection line 232: a literal
substring test over the raw header lines. -/
def upgradeHeaderPresent (headers : List String) : Bool :=
  headers.any (fun h => strContains h "Upgrade: websocket")

/-- Observable actions a connection handler performs on its socket and on
the shared WebSocket client set.  raiseAttrError is the AttributeError a
Python attribute lookup raises when the named attribute does not exist. -/
inductive ConnAction where
  | sendStr (s : String)
  | sendBytes (bs : List Nat)
  | addClient (c : Nat)
  | recvCall
  | removeClient (c : Nat)
  | closeConn (c : Nat)
  | send400
  | send500
  | raiseAttrError
  deriving Repr, DecidableEq

/-- The attribute names defined on the WebSocketHandler class
(websocket.py): every method is camelCase or a private helper; the class
has no snake-case aliases, no getattr hook, and nothing in the repository
monkey-patches it. -/
def wsHandlerAttrs : List String :=
  ["settings", "_loadInjectedCode", "handleWebSocketUpgrade", "addClient",
   "removeClient", "notifyClients", "_flushPendingMessage", "_broadcast",
   "broadcast_message", "_createWebSocketFrame", "_buildWebSocketFrame",
   "set_message_handler", "_notify_incoming_message", "read_message",
   "_recv_exact", "_build_pong_frame", "shutdown", "clients",
   "INJECTED_CODE"]

/-- Python attribute lookup on the WebSocketHandler instance: a name not in
the class raises AttributeError at the call site. -/
def wsHandlerHasAttr (name : String) : Bool := wsHandlerAttrs.contains name

/-- Upgrade branch of Server.handle_connection (server.py lines 232-246),
with the Python attribute lookups made explicit.  The branch calls the
snake-case names handle_websocket_upgrade (line 235) and add_client (line
238) on the WebSocketHandler; a missing attribute raises AttributeError,
which the except clause at line 243 answers with a 500.  Neither snake-case
name exists on the class, so the branch always raises at line 235 and sends
the 500: the 101 handshake is never sent and the socket is never added to
the client set. -/
def dispatchUpgrade (headers : List String) (conn : Nat) : List ConnAction :=
  if wsHandlerHasAttr "handle_websocket_upgrade" then
    match handleWebSocketUpgrade headers with
    | some resp =>
      if wsHandlerHasAttr "add_client" then [.sendStr resp, .addClient conn]
      else [.sendStr resp, .send500]
    | none => [.send400]
  else [.send500]

/-- Route taken by the dispatch of Server.handle_connection once the
request line is parsed. -/
inductive Route where
  | websocket
  | get
  | head
  | options
  | methodNotAllowed
  deriving Repr, DecidableEq

/-- Dispatch order of Server.handle_connection: the WebSocket-upgrade test
runs before the method switch. -/
def routeOf (method : String) (headers : List String) : Route :=
  if upgradeHeaderPresent headers then .websocket
  else if method = "GET" then .get
  else if method = "HEAD" then .head
  else if method = "OPTIONS" then .options
  else .methodNotAllowed

/-! ### Per-connection WebSocket streaming loops
Embeds Server.handle_websocket_connection (server.py lines 604-617) and
RequestHandler.handleWebSocketConnection (request_handler.py lines
130-144).  A loop is driven by the sequence of outcomes of its recv calls
and by the stop flag sampled at the top of each iteration. -/

/-- Outcome of one blocking recv call. -/
inductive RecvEvent where
  | data (bs : List Nat)
  | closed
  | timeout
  | err
  deriving Repr, DecidableEq

/-- Loop of RequestHandler.handleWebSocketConnection: leave when the stop
flag is up; continue on data and on timeout; break on an empty read (peer
closed) and on any other error; the client is removed from the set in the
cleanup step on every exit. -/
def rhWsLoop (stop : Nat → Bool) (conn : Nat) : Nat → List RecvEvent → List ConnAction
  | _, [] => [.removeClient conn]
  | i, e :: rest =>
    if stop i then [.removeClient conn]
    else
      match e with
      | .data _ => .recvCall :: rhWsLoop stop conn (i + 1) rest
      | .closed => [.recvCall, .removeClient conn]
      | .timeout => .recvCall :: rhWsLoop stop conn (i + 1) rest
      | .err => [.recvCall, .removeClient conn]

/-- Cleanup step of Server.handle_websocket_connection (server.py lines
612-617), with the attribute lookup made explicit: the finally clause calls
the snake-case remove_client on the WebSocketHandler and then closes the
socket.  The attribute does not exist on the class, so the lookup raises
AttributeError: the socket is never removed from the client set and the
close call after it is skipped. -/
def srvWsCleanup (conn : Nat) : List ConnAction :=
  if wsHandlerHasAttr "remove_client" then [.removeClient conn, .closeConn conn]
  else [.raiseAttrError]

/-- Loop of Server.handle_websocket_connection: leave when the stop flag is
up; the bare except breaks on any exception, timeouts included; an empty
read from a closed peer is not an exception and the loop keeps calling
recv; every exit runs the finally cleanup step. -/
def srvWsLoop (stop : Nat → Bool) (conn : Nat) : Nat → List RecvEvent → List ConnAction
  | _, [] => srvWsCleanup conn
  | i, e :: rest =>
    if stop i then srvWsCleanup conn
    else
      match e with
      | .data _ => .recvCall :: srvWsLoop stop conn (i + 1) rest
      | .closed => .recvCall :: srvWsLoop stop conn (i + 1) rest
      | .timeout => .recvCall :: srvWsCleanup conn
      | .err => .recvCall :: srvWsCleanup conn

/-- A FIN-set unmasked ping frame with the given payload, as a peer could
send it (same layout the frame builders produce, with the ping opcode). -/
def pingFrame (payload : List Nat) : List Nat :=
  0x89 :: lenEncode payload.length ++ payload

/-! ### Connection admission
Embeds ConnectionManager.addConnection and ConnectionManager.removeConnection
(liveserverplus_lib/connection_manager.py, lines 42-95). -/

/-- The part of an HTTP response that the admission claims observe. -/
structure HttpResp where
  status : Nat
  headers : List (String × String)
  deriving Repr, DecidableEq

/-- The 503 response addConnection sends when the ceiling is reached:
status 503 with the Retry-After header set to 5 seconds. -/
def resp503 : HttpResp :=
  ⟨503, [("Content-Type", "text/html; charset=utf-8"), ("Retry-After", "5")]⟩

/-- Admission state: the set of active connections (a duplicate-free list)
and the configured ceiling max_threads. -/
structure ConnMgr where
  active : List Nat
  maxThreads : Nat
  deriving Repr, DecidableEq

/-- Set insertion for the active-connection set. -/
def setAdd (c : Nat) (l : List Nat) : List Nat := if c ∈ l then l else c :: l

/-- Embedding of addConnection: at or over the ceiling, send the 503 and
refuse without touching the set; under it, record the connection. -/
def addConnection (m : ConnMgr) (conn : Nat) : Bool × ConnMgr × Option HttpResp :=
  if m.maxThreads ≤ m.active.length then (false, m, some resp503)
  else (true, { m with active := setAdd conn m.active }, none)

/-- Embedding of removeConnection: discard the connection from the set
(idempotent). -/
def removeConnection (m : ConnMgr) (conn : Nat) : ConnMgr :=
  { m with active := m.active.filter (fun x => x ≠ conn) }

/-- Admit a sequence of connections, stopping at the first refusal. -/
def admitSeq (m : ConnMgr) : List Nat → Bool × ConnMgr
  | [] => (true, m)
  | c :: cs =>
    let r := addConnection m c
    if r.1 then admitSeq r.2.1 cs else (false, r.2.1)

/-- Interleaved admission-control operations, for the ceiling invariant. -/
inductive CmOp where
  | add (c : Nat)
  | remove (c : Nat)
  deriving Repr, DecidableEq

/-- Apply one admission-control operation. -/
def applyCmOp (m : ConnMgr) : CmOp → ConnMgr
  | .add c => (addConnection m c).2.1
  | .remove c => removeConnection m c

/-- Apply a sequence of admission-control operations. -/
def applyCmOps (m : ConnMgr) (ops : List CmOp) : ConnMgr := ops.foldl applyCmOp m

/-! ### Live-reload script injection
Embeds inject_before_tag (liveserverplus_lib/text_utils.py, lines 80-99)
and Server.inject_websocket_script (server.py, lines 591-602).  Both
replace the first case-insensitive occurrence of the anchor tag by the
injected block (re.subn with count 1) and append at the end when the tag
is absent. -/

/-- First index at which pat occurs in hay, scanning left to right. -/
def findSubIdxGo (pat : List Char) : List Char → Nat → Option Nat
  | [], i => if pat.isEmpty then some i else none
  | c :: rest, i =>
    if pat.isPrefixOf (c :: rest) then some i else findSubIdxGo pat rest (i + 1)

/-- First index of the case-insensitive occurrence of tag inside html. -/
def findTagIdx (html tag : String) : Option Nat :=
  findSubIdxGo (lowerStr tag.toList) (lowerStr html.toList) 0

/-- Embedding of inject_before_tag: substitute the injected content for the
first case-insensitive occurrence of the tag; when the tag is absent,
append the content at the very end.  (The replacement text is taken
literally; the sources rely on the injected template ending with the same
closing tag, so the substitution leaves the tag in place.) -/
def inject_before_tag (html tag content : String) : String :=
  match findTagIdx html tag with
  | some i =>
    String.mk (html.toList.take i) ++ content ++
      String.mk (html.toList.drop (i + tag.toList.length))
  | none => html ++ content

/-- The fallback injected block of websocket.py line 57; like the shipped
template, it ends with the closing body tag, so substituting it for that
tag re-creates the tag after the script. -/
def fallbackInjectedCode : String := "<script></script></body>"

/-- Embedding of Server.inject_websocket_script: the anchor is the body
closing tag only. -/
def inject_websocket_script (injectedCode html : String) : String :=
  inject_before_tag html "</body>" injectedCode

/-- HTML branch of the file-contents sender: inject, then answer 200 with
the injected body (compression disabled, its default). -/
def serveHtmlPage (injectedCode html : String) : Nat × String :=
  (200, inject_websocket_script injectedCode html)

/-- Invariant on the broadcaster state: the pending slot only ever holds
one of the two protocol messages. -/
def goodPending (st : WsState) : Bool :=
  st.pending = none || st.pending = some "reload" || st.pending = some "refreshcss"

/-! ### Helper lemmas -/

theorem packBE_length (k v : Nat) : (packBE k v).length = k := by
  induction k generalizing v with
  | zero => rfl
  | succ k ih => simp [packBE, ih]

theorem unpackBE_append_single (xs : List Nat) (b : Nat) :
    unpackBE (xs ++ [b]) = unpackBE xs * 256 + b := by
  simp [unpackBE, List.foldl_append]

theorem unpackBE_packBE (k v : Nat) : unpackBE (packBE k v) = v % 256 ^ k := by
  induction k generalizing v with
  | zero => simp [packBE, unpackBE, Nat.mod_one]
  | succ k ih =>
    rw [packBE, unpackBE_append_single, ih, pow_succ']
    rw [Nat.mod_mul]
    ring

theorem recvExact_exact (xs ys : List Nat) :
    recvExact xs.length (xs ++ ys) = some (xs, ys) := by
  simp [recvExact, List.take_left, List.drop_left]

theorem land128_of_le {L : Nat} (h : L ≤ 125) : L &&& 128 = 0 := by
  have all : ∀ l, l < 126 → l &&& 128 = 0 := by decide
  exact all L (by omega)

theorem land127_of_le {L : Nat} (h : L ≤ 125) : L &&& 127 = L := by
  have all : ∀ l, l < 126 → l &&& 127 = l := by decide
  exact all L (by omega)

theorem readFrameCore_frame (b0 : Nat) (bs : List Nat)
    (h : bs.length < 18446744073709551616) :
    readFrameCore (b0 :: lenEncode bs.length ++ bs) = some (b0 &&& 0x0F, bs, []) := by
  by_cases h1 : bs.length ≤ 125
  · have e : lenEncode bs.length = [bs.length] := by simp [lenEncode, h1]
    rw [e]
    have r2 : recvExact 2 (b0 :: bs.length :: bs) = some ([b0, bs.length], bs) := by
      simp [recvExact, List.take, List.drop]
    have rl : recvExact bs.length bs = some (bs, []) := by
      have := recvExact_exact bs []
      simpa using this
    simp only [readFrameCore, List.cons_append, List.nil_append, r2,
      List.getD_cons_zero, List.getD_cons_succ, land128_of_le h1, land127_of_le h1]
    have n126 : (bs.length = 126) = False := by simp; omega
    have n127 : (bs.length = 127) = False := by simp; omega
    simp [n126, n127, rl]
  · by_cases h2 : bs.length ≤ 65535
    · have e : lenEncode bs.length = 126 :: packBE 2 bs.length := by
        simp [lenEncode, h1, h2]
      rw [e]
      have r2 : recvExact 2 (b0 :: 126 :: (packBE 2 bs.length ++ bs)) =
          some ([b0, 126], packBE 2 bs.length ++ bs) := by
        simp [recvExact, List.take, List.drop]
      have rext : recvExact 2 (packBE 2 bs.length ++ bs) =
          some (packBE 2 bs.length, bs) := by
        have := recvExact_exact (packBE 2 bs.length) bs
        rwa [packBE_length] at this
      have rl : recvExact bs.length bs = some (bs, []) := by
        have := recvExact_exact bs []
        simpa using this
      have ul : unpackBE (packBE 2 bs.length) = bs.length := by
        rw [unpackBE_packBE]
        exact Nat.mod_eq_of_lt (by norm_num; omega)
      have A : (126 : Nat) &&& 127 = 126 := by decide
      have B : (126 : Nat) &&& 128 = 0 := by decide
      simp only [readFrameCore, List.cons_append, r2, List.getD_cons_zero,
        List.getD_cons_succ, A, B]
      simp [rext, ul, rl]
    · have e : lenEncode bs.length = 127 :: packBE 8 bs.length := by
        simp [lenEncode, h1, h2]
      rw [e]
      have r2 : recvExact 2 (b0 :: 127 :: (packBE 8 bs.length ++ bs)) =
          some ([b0, 127], packBE 8 bs.length ++ bs) := by
        simp [recvExact, List.take, List.drop]
      have rext : recvExact 8 (packBE 8 bs.length ++ bs) =
          some (packBE 8 bs.length, bs) := by
        have := recvExact_exact (packBE 8 bs.length) bs
        rwa [packBE_length] at this
      have rl : recvExact bs.length bs = some (bs, []) := by
        have := recvExact_exact bs []
        simpa using this
      have ul : unpackBE (packBE 8 bs.length) = bs.length := by
        rw [unpackBE_packBE]
        exact Nat.mod_eq_of_lt (by norm_num; omega)
      have A : (127 : Nat) &&& 127 = 127 := by decide
      have B : (127 : Nat) &&& 128 = 0 := by decide
      simp only [readFrameCore, List.cons_append, r2, List.getD_cons_zero,
        List.getD_cons_succ, A, B]
      simp [rext, ul, rl]

theorem readFrameCore_build (bs : List Nat) (h : bs.length < 18446744073709551616) :
    readFrameCore (frameOfBytes bs) = some (1, bs, []) := by
  have := readFrameCore_frame 0x81 bs h
  simpa [frameOfBytes] using this

theorem selectMessage_cases (fullReload : Bool) (path : String) :
    selectMessage fullReload path = "reload" ∨
    selectMessage fullReload path = "refreshcss" := by
  unfold selectMessage
  split_ifs <;> simp

theorem goodPending_init : goodPending WsState.init = true := by decide

theorem goodPending_notify (fullReload : Bool) (w : Nat) (st : WsState)
    (now : Nat) (path : String) (h : goodPending st = true) :
    goodPending (notifyClients fullReload w st now path).1 = true := by
  by_cases hw : w = 0
  · simpa [notifyClients, hw] using h
  · rcases selectMessage_cases fullReload path with hm | hm
    · simp [notifyClients, hw, hm, goodPending]
    · by_cases hp : st.pending = some "reload"
      · simp [notifyClients, hw, hm, hp, goodPending]
      · simp [notifyClients, hw, hm, hp, goodPending]

theorem notify_out_mem (fullReload : Bool) (w : Nat) (st : WsState)
    (now : Nat) (path : String) (t : Nat) (m : String)
    (hmem : (t, m) ∈ (notifyClients fullReload w st now path).2) :
    m = selectMessage fullReload path := by
  by_cases hw : w = 0
  · simp [notifyClients, hw] at hmem
    exact hmem.2
  · simp [notifyClients, hw] at hmem

theorem flush_out_msg (st : WsState) (d : Nat) (h : goodPending st = true) :
    ∀ t m, (t, m) ∈ (flushPendingMessage st d).2 →
      m = "reload" ∨ m = "refreshcss" := by
  intro t m hm
  simp only [flushPendingMessage, List.mem_singleton, Prod.mk.injEq] at hm
  obtain ⟨-, hm2⟩ := hm
  subst hm2
  simp only [goodPending, Bool.or_eq_true, decide_eq_true_eq] at h
  rcases h with (h | h) | h <;> simp [h]

theorem runEvents_messages (fullReload : Bool) (w : Nat) :
    ∀ (events : List (Nat × String)) (st : WsState), goodPending st = true →
      ∀ t m, (t, m) ∈ runEvents fullReload w st events →
        m = "reload" ∨ m = "refreshcss" := by
  intro events
  induction events with
  | nil =>
    intro st hst t m hm
    cases hd : st.deadline with
    | none => simp [runEvents, hd] at hm
    | some d =>
      simp only [runEvents, hd] at hm
      exact flush_out_msg st d hst t m hm
  | cons e rest ih =>
    intro st hst t m hm
    obtain ⟨t0, p0⟩ := e
    obtain ⟨pend, dl⟩ := st
    have tail : ∀ st1 : WsState, goodPending st1 = true →
        (t, m) ∈ (notifyClients fullReload w st1 t0 p0).2 ++
          runEvents fullReload w (notifyClients fullReload w st1 t0 p0).1 rest →
        m = "reload" ∨ m = "refreshcss" := by
      intro st1 h1 hmem
      rcases List.mem_append.mp hmem with h2 | h2
      · rw [notify_out_mem fullReload w st1 t0 p0 t m h2]
        exact selectMessage_cases fullReload p0
      · exact ih _ (goodPending_notify fullReload w st1 t0 p0 h1) t m h2
    cases dl with
    | none =>
      simp only [runEvents] at hm
      exact tail ⟨pend, none⟩ hst hm
    | some d =>
      by_cases hdt : d ≤ t0
      · simp only [runEvents, if_pos hdt, List.append_assoc] at hm
        rcases List.mem_append.mp hm with h2 | h2
        · exact flush_out_msg ⟨pend, some d⟩ d hst t m h2
        · exact tail (flushPendingMessage ⟨pend, some d⟩ d).1
            (by simpa [flushPendingMessage] using goodPending_init) h2
      · simp only [runEvents, if_neg hdt] at hm
        exact tail ⟨pend, some d⟩ hst hm

/-- C4 counterexample: with full-reload mode off and a changed path a.css,
the broadcaster sends the payload refreshcss, which is neither of the two
payloads the claim allows (reload and refresh-css): the source string has
no hyphen. -/
theorem c4_payload_name_cx :
    (notifyClients false 0 WsState.init 0 "a.css").2 = [(0, "refreshcss")] ∧
    ¬("refreshcss" = "reload" ∨ "refreshcss" = "refresh-css") := by decide

/-- C4 (amended): every text frame the reload broadcaster sends carries
exactly one of the two payloads reload or refreshcss; with full-reload mode
on the payload is always reload, otherwise it is refreshcss exactly for
paths ending in .css; every immediate or coalesced broadcast message obeys
this, and the two precomputed frames parse back to the text opcode with
those payloads. -/
theorem c4_broadcast_payloads :
    (∀ fullReload path, selectMessage fullReload path = "reload" ∨
        selectMessage fullReload path = "refreshcss")
    ∧ (∀ path, selectMessage true path = "reload")
    ∧ (∀ path, endsCss path = true → selectMessage false path = "refreshcss")
    ∧ (∀ path, endsCss path = false → selectMessage false path = "reload")
    ∧ (∀ fullReload w st now path t m,
        (t, m) ∈ (notifyClients fullReload w st now path).2 →
        m = selectMessage fullReload path)
    ∧ (∀ fullReload w events st t m, goodPending st = true →
        (t, m) ∈ runEvents fullReload w st events →
        m = "reload" ∨ m = "refreshcss")
    ∧ readFrameCore (buildWebSocketFrame "reload") =
        some (1, utf8Encode "reload", [])
    ∧ readFrameCore (buildWebSocketFrame "refreshcss") =
        some (1, utf8Encode "refreshcss", []) := by
  refine ⟨selectMessage_cases, ?_, ?_, ?_, ?_, ?_, ?_, ?_⟩
  · intro path; simp [selectMessage]
  · intro path h; simp [selectMessage, h]
  · intro path h; simp [selectMessage, h]
  · intro fullReload w st now path t m hm
    exact notify_out_mem fullReload w st now path t m hm
  · intro fullReload w events st t m hst hm
    exact runEvents_messages fullReload w events st hst t m hm
  · decide
  · decide

/-- C4 witness: the amended theorem applied at concrete inputs; a css
change with full reload off yields refreshcss, and other paths reload. -/
theorem c4_broadcast_payloads_witness :
    selectMessage false "style.css" = "refreshcss" ∧
    selectMessage false "app.js" = "reload" ∧
    ("reload" = "reload" ∨ "reload" = "refreshcss") := by
  refine ⟨c4_broadcast_payloads.2.2.1 "style.css" (by decide),
    c4_broadcast_payloads.2.2.2.1 "app.js" (by decide),
    c4_broadcast_payloads.2.2.2.2.2.1 false 300 [(0, "x.js")] WsState.init 300 "reload"
      (by decide) (by decide)⟩

/-- C5: with a positive wait, a non-css event (any event whose selected
message is reload) forces the pending message to reload; no event ever
downgrades a pending reload; the timer flush broadcasts exactly one message
and clears the pending state; and the spec scenario with a 300 ms wait and
events for a.css at 0 ms and b.js at 50 ms produces exactly one broadcast
of reload, sent at 350 ms, 300 ms after the last event. -/
theorem c5_debounce_coalescing :
    (∀ (fullReload : Bool) (w : Nat) (st : WsState) (now : Nat) (path : String),
        0 < w → selectMessage fullReload path = "reload" →
        (notifyClients fullReload w st now path).1.pending = some "reload")
    ∧ (∀ (fullReload : Bool) (w : Nat) (st : WsState) (now : Nat) (path : String),
        0 < w → st.pending = some "reload" →
        (notifyClients fullReload w st now path).1.pending = some "reload")
    ∧ (∀ st now, flushPendingMessage st now =
        (WsState.init, [(now, st.pending.getD "reload")]))
    ∧ runEvents false 300 WsState.init [(0, "a.css"), (50, "b.js")] =
        [(350, "reload")] := by
  refine ⟨?_, ?_, fun st now => rfl, by decide⟩
  · intro fullReload w st now path hw hm
    simp [notifyClients, Nat.pos_iff_ne_zero.mp hw, hm]
  · intro fullReload w st now path hw hp
    rcases selectMessage_cases fullReload path with hm | hm
    · simp [notifyClients, Nat.pos_iff_ne_zero.mp hw, hm]
    · simp [notifyClients, Nat.pos_iff_ne_zero.mp hw, hm, hp]

/-- C5 witness: the debounce theorem applied at concrete inputs. -/
theorem c5_debounce_coalescing_witness :
    (notifyClients false 300 ⟨some "refreshcss", some 300⟩ 50 "b.js").1.pending =
      some "reload" ∧
    (notifyClients false 300 ⟨some "reload", some 300⟩ 50 "c.css").1.pending =
      some "reload" := by
  refine ⟨c5_debounce_coalescing.1 false 300 _ 50 "b.js" (by decide) (by decide),
    c5_debounce_coalescing.2.1 false 300 _ 50 "c.css" (by decide) rfl⟩

/-- C1 (claim is right, code is wrong): with served folder /site whose
parent directory exists, the GET path /%2e%2e passes the raw-pattern check
of the request handler (the raw string has no literal dot-dot), serveFile
percent-decodes it to dot-dot, joins it with the served folder, finds a
directory, and hands /site/.. to the directory-listing collaborator without
any call to validate_and_secure_path; the canonical path of the listed
directory is /, which is outside every served folder. -/
theorem c1_directory_listing_escape :
    handleGetRequest ⟨["/", "/site"], ["/site/index.html"]⟩ ["/site"] "/%2e%2e" =
      .served (.directoryListing "/site/.." "/%2e%2e" "/site")
    ∧ normalizePath "/site/.." = "/"
    ∧ isRelativeTo (normalizePath "/site") (normalizePath "/site/..") = false := by
  decide

/-- C2: validate_and_secure_path rejects the empty path; rejects every path
whose percent-decoded form contains dot-dot, a doubled slash, a doubled
backslash, or NUL; rejects every path whose canonicalized join with the
base folder is not equal to or nested under the canonicalized base; and on
a plain relative path accepted by the prefix check it returns exactly the
canonical path of the join. -/
theorem c2_validate_and_secure_path :
    (∀ os base, validate_and_secure_path os base "" = none)
    ∧ (∀ os base p, hasSuspiciousPattern (pyUnquote p) = true →
        validate_and_secure_path os base p = none)
    ∧ (∀ os base p, isRelativeTo (Resolver.resolve os base)
          (Resolver.resolve os (osJoin base (cleanRequestPath p))) = false →
        validate_and_secure_path os base p = none)
    ∧ (∀ os base p c, p ≠ "" → hasSuspiciousPattern (pyUnquote p) = false →
        Resolver.resolve os (osJoin base (cleanRequestPath p)) = c →
        isRelativeTo (Resolver.resolve os base) c = true →
        validate_and_secure_path os base p = some c) := by
  refine ⟨?_, ?_, ?_, ?_⟩
  · intro os base
    simp [validate_and_secure_path]
  · intro os base p hp
    by_cases he : p = ""
    · simp [validate_and_secure_path, he]
    · simp [validate_and_secure_path, he, hp]
  · intro os base p hrel
    by_cases he : p = ""
    · simp [validate_and_secure_path, he]
    · by_cases hp : hasSuspiciousPattern (pyUnquote p) = true
      · simp [validate_and_secure_path, he, hp]
      · simp [validate_and_secure_path, he, hp, hrel]
  · intro os base p c he hp hc hrel
    subst hc
    simp [validate_and_secure_path, he, hp, hrel]

/-- C2 witness: the validation theorem applied at concrete inputs, using
the lexical canonicalizer and, for the escape clause, a canonicalizer under
which the joined path resolves outside the base. -/
theorem c2_validate_and_secure_path_witness :
    validate_and_secure_path lexResolver "/site" "" = none ∧
    validate_and_secure_path lexResolver "/site" "/%2e%2e/x" = none ∧
    validate_and_secure_path ⟨fun p => if p = "/site" then "/site" else "/other"⟩
      "/site" "x" = none ∧
    validate_and_secure_path lexResolver "/site" "a.txt" = some "/site/a.txt" := by
  refine ⟨c2_validate_and_secure_path.1 lexResolver "/site",
    c2_validate_and_secure_path.2.1 lexResolver "/site" "/%2e%2e/x" (by decide),
    c2_validate_and_secure_path.2.2.1 _ "/site" "x" (by decide),
    c2_validate_and_secure_path.2.2.2 lexResolver "/site" "a.txt" "/site/a.txt"
      (by decide) (by decide) (by decide) (by decide)⟩

/-- C3 (claim is right, code is wrong): the dispatch of
Server.handle_connection does route upgrade requests to the websocket
branch, and WebSocketHandler.handleWebSocketUpgrade would produce the 101
response for them, but the branch invokes the handler through the
snake-case names handle_websocket_upgrade and add_client, neither of which
exists on the class; the resulting AttributeError is answered with a 500 by
the except clause, so the 101 handshake is never sent and no socket is ever
added to the WebSocket client set through this dispatch. -/
theorem c3_upgrade_dispatch_bug :
    (∀ (headers : List String) (conn : Nat),
        dispatchUpgrade headers conn = [.send500]) ∧
    wsHandlerHasAttr "handle_websocket_upgrade" = false ∧
    wsHandlerHasAttr "add_client" = false ∧
    wsHandlerHasAttr "handleWebSocketUpgrade" = true ∧
    wsHandlerHasAttr "addClient" = true ∧
    routeOf "GET" ["Upgrade: websocket", "Sec-WebSocket-Key: abc"] = .websocket ∧
    handleWebSocketUpgrade ["Upgrade: websocket", "Sec-WebSocket-Key: abc"] =
      some (upgradeResponse (wsAccept "abc")) := by
  have hattr : wsHandlerHasAttr "handle_websocket_upgrade" = false := by decide
  refine ⟨?_, hattr, by decide, by decide, by decide, by decide, ?_⟩
  · intro headers conn
    simp [dispatchUpgrade, hattr]
  · have hk : findWsKey ["Upgrade: websocket", "Sec-WebSocket-Key: abc"] =
        some "abc" := by decide
    have hne : ("abc" : String) ≠ "" := by decide
    simp [handleWebSocketUpgrade, hk, hne]

set_option maxRecDepth 400000 in
/-- C7: for every header set carrying a non-empty key k, the handshake
result is the 101 response whose accept value is the base64 of the SHA-1 of
k followed by the RFC6455 magic string; without the key header the result
is none; and on the canonical RFC6455 test key the accept value is the
canonical test vector. -/
theorem c7_handshake_accept :
    (∀ (headers : List String) (k : String), findWsKey headers = some k →
        k ≠ "" →
        handleWebSocketUpgrade headers = some (upgradeResponse (wsAccept k)))
    ∧ (∀ headers, findWsKey headers = none →
        handleWebSocketUpgrade headers = none)
    ∧ (∀ k, wsAccept k = base64EncodeStr (sha1 (utf8Encode (k ++ wsMagic))))
    ∧ wsAccept "dGhlIHNhbXBsZSBub25jZQ==" = "s3pPLMBiTxaQ9kYGzzhZRbK+xOo=" := by
  refine ⟨?_, ?_, fun k => rfl, by rfl⟩
  · intro headers k hk hne
    simp [handleWebSocketUpgrade, hk, hne]
  · intro headers h
    simp [handleWebSocketUpgrade, h]

/-- C7 witness: the handshake theorem applied to the RFC6455 sample request
and to a request without the key header. -/
theorem c7_handshake_accept_witness :
    handleWebSocketUpgrade ["Sec-WebSocket-Key: dGhlIHNhbXBsZSBub25jZQ=="] =
      some (upgradeResponse (wsAccept "dGhlIHNhbXBsZSBub25jZQ==")) ∧
    handleWebSocketUpgrade ["Host: localhost"] = none :=
  ⟨c7_handshake_accept.1 ["Sec-WebSocket-Key: dGhlIHNhbXBsZSBub25jZQ=="]
      "dGhlIHNhbXBsZSBub25jZQ==" (by decide) (by decide),
    c7_handshake_accept.2.1 ["Host: localhost"] (by decide)⟩

/-- C8: for payload byte strings of length 0, 125, 126, 65535 or 65536,
building an unmasked FIN-set text frame and parsing the resulting byte
stream recovers the text opcode and exactly the original payload bytes
with nothing left over; the same holds for the frame built from any
message whose UTF-8 encoding is shorter than 2 to the 64. -/
theorem c8_frame_roundtrip :
    (∀ bs : List Nat,
        bs.length = 0 ∨ bs.length = 125 ∨ bs.length = 126 ∨
          bs.length = 65535 ∨ bs.length = 65536 →
        readFrameCore (frameOfBytes bs) = some (1, bs, []))
    ∧ (∀ message : String,
        (utf8Encode message).length < 18446744073709551616 →
        readFrameCore (buildWebSocketFrame message) =
          some (1, utf8Encode message, [])) := by
  constructor
  · intro bs h
    exact readFrameCore_build bs (by omega)
  · intro message h
    exact readFrameCore_build (utf8Encode message) h

/-- C8 witness: the round-trip theorem applied to a payload of 65536 bytes
and to the concrete reload message. -/
theorem c8_frame_roundtrip_witness :
    readFrameCore (frameOfBytes (List.replicate 65536 7)) =
      some (1, List.replicate 65536 7, []) ∧
    readFrameCore (buildWebSocketFrame "reload") =
      some (1, utf8Encode "reload", []) :=
  ⟨c8_frame_roundtrip.1 (List.replicate 65536 7)
      (by right; right; right; right; simp only [List.length_replicate]),
    c8_frame_roundtrip.2 "reload" (by decide)⟩

/-- C9 counterexample: an HTML document with a head closing tag but no body
closing tag; the claim says the script is injected immediately before the
head anchor as a fallback, but the code has no such fallback and appends
the script at the very end. -/
theorem c9_no_head_fallback_cx :
    inject_before_tag "<html><head></head><p>hi" "</body>" "<script>x</script>" =
      "<html><head></head><p>hi" ++ "<script>x</script>" ∧
    "<html><head></head><p>hi" ++ "<script>x</script>" ≠
      "<html><head>" ++ "<script>x</script>" ++ "</head><p>hi" := by
  decide

/-- C9 (amended): the reload script block is substituted for the first
case-insensitive occurrence of the body closing tag (the shipped block ends
with that same tag, so the substitution places the script immediately
before it); there are no head or svg fallback anchors: when no body closing
tag exists the script is appended at the very end and the page is still
served with status 200 and body equal to the original content with the
script appended. -/
theorem c9_injection_spec :
    (∀ html content : String, findTagIdx html "</body>" = none →
        inject_before_tag html "</body>" content = html ++ content)
    ∧ (∀ (html content : String) (i : Nat), findTagIdx html "</body>" = some i →
        inject_before_tag html "</body>" content =
          String.mk (html.toList.take i) ++ content ++
            String.mk (html.toList.drop (i + 7)))
    ∧ strEndsWith fallbackInjectedCode "</body>" = true
    ∧ (∀ html code : String, findTagIdx html "</body>" = none →
        serveHtmlPage code html = (200, html ++ code)) := by
  refine ⟨?_, ?_, by decide, ?_⟩
  · intro html content h
    simp [inject_before_tag, h]
  · intro html content i h
    simp [inject_before_tag, h]
  · intro html code h
    simp [serveHtmlPage, inject_websocket_script, inject_before_tag, h]

/-- C9 witness: the injection theorem applied to a page without the body
anchor and to a page with it. -/
theorem c9_injection_spec_witness :
    inject_before_tag "<p>hi" "</body>" "<script>x</script>" =
      "<p>hi" ++ "<script>x</script>" ∧
    inject_before_tag "<p></body>" "</body>" "<script>x</script>" =
      String.mk ("<p></body>".toList.take 3) ++ "<script>x</script>" ++
        String.mk ("<p></body>".toList.drop (3 + 7)) ∧
    serveHtmlPage "<script>x</script>" "<p>hi" =
      (200, "<p>hi" ++ "<script>x</script>") :=
  ⟨c9_injection_spec.1 "<p>hi" "<script>x</script>" (by decide),
    c9_injection_spec.2.1 "<p></body>" "<script>x</script>" 3 (by decide),
    c9_injection_spec.2.2.2 "<p>hi" "<script>x</script>" (by decide)⟩

/-- C10 (the never-parses part of the claim is right; the exit and removal
behaviour of the Server variant is wrong in the code): both streaming loops
only issue recv calls and never send anything, so read_message - which, as
shown on a concrete ping, would answer a ping frame with a pong carrying
the same payload - is never invoked and inbound pings never receive a pong;
the loop of RequestHandler exits at a peer close and removes the client
from the set, but Server.handle_websocket_connection keeps calling recv
after the peer closes (an empty read is not an exception) and on every exit
its finally clause calls the snake-case remove_client, which does not exist
on WebSocketHandler, so an AttributeError is raised and the socket is never
removed from the client set there. -/
theorem c10_ws_loop_bug :
    srvWsLoop (fun _ => false) 7 0 [.closed, .closed] =
      [.recvCall, .recvCall, .raiseAttrError] ∧
    (srvWsLoop (fun _ => false) 7 0 [.closed, .closed]).contains
      (ConnAction.removeClient 7) = false ∧
    wsHandlerHasAttr "remove_client" = false ∧
    wsHandlerHasAttr "removeClient" = true ∧
    srvWsCleanup 7 = [.raiseAttrError] ∧
    rhWsLoop (fun _ => false) 7 0 [.closed] = [.recvCall, .removeClient 7] ∧
    readMessage (pingFrame [1, 2, 3]) = (some "", [buildPongFrame [1, 2, 3]]) ∧
    (∀ (stop : Nat → Bool) (conn i : Nat) (events : List RecvEvent),
        ∃ pre, srvWsLoop stop conn i events = pre ++ srvWsCleanup conn ∧
          pre.all (fun a => a == ConnAction.recvCall) = true) ∧
    (∀ (stop : Nat → Bool) (conn i : Nat) (events : List RecvEvent),
        ∃ pre, rhWsLoop stop conn i events = pre ++ [.removeClient conn] ∧
          pre.all (fun a => a == ConnAction.recvCall) = true) := by
  refine ⟨by decide, by decide, by decide, by decide, by decide, by decide,
    by decide, ?_, ?_⟩
  · intro stop conn i events
    induction events generalizing i with
    | nil => exact ⟨[], rfl, rfl⟩
    | cons e rest ih =>
      by_cases hs : stop i
      · exact ⟨[], by simp [srvWsLoop, hs], rfl⟩
      · cases e with
        | data bs =>
          obtain ⟨pre, hp, hall⟩ := ih (i + 1)
          exact ⟨.recvCall :: pre, by simp [srvWsLoop, hs, hp],
            by simp [List.all_cons, hall]⟩
        | closed =>
          obtain ⟨pre, hp, hall⟩ := ih (i + 1)
          exact ⟨.recvCall :: pre, by simp [srvWsLoop, hs, hp],
            by simp [List.all_cons, hall]⟩
        | timeout => exact ⟨[.recvCall], by simp [srvWsLoop, hs], by decide⟩
        | err => exact ⟨[.recvCall], by simp [srvWsLoop, hs], by decide⟩
  · intro stop conn i events
    induction events generalizing i with
    | nil => exact ⟨[], rfl, rfl⟩
    | cons e rest ih =>
      by_cases hs : stop i
      · exact ⟨[], by simp [rhWsLoop, hs], rfl⟩
      · cases e with
        | data bs =>
          obtain ⟨pre, hp, hall⟩ := ih (i + 1)
          exact ⟨.recvCall :: pre, by simp [rhWsLoop, hs, hp],
            by simp [List.all_cons, hall]⟩
        | closed => exact ⟨[.recvCall], by simp [rhWsLoop, hs], by decide⟩
        | timeout =>
          obtain ⟨pre, hp, hall⟩ := ih (i + 1)
          exact ⟨.recvCall :: pre, by simp [rhWsLoop, hs, hp],
            by simp [List.all_cons, hall]⟩
        | err => exact ⟨[.recvCall], by simp [rhWsLoop, hs], by decide⟩

theorem length_filter_ne_lt (l : List Nat) (c : Nat) (h : c ∈ l) :
    (l.filter (fun x => x ≠ c)).length < l.length := by
  induction l with
  | nil => cases h
  | cons a t ih =>
    by_cases hac : a = c
    · subst hac
      have he : List.filter (fun x => x ≠ a) (a :: t) =
          List.filter (fun x => x ≠ a) t := by
        simp [List.filter_cons]
      rw [he, List.length_cons]
      exact Nat.lt_succ_of_le (List.length_filter_le _ t)
    · have he : List.filter (fun x => x ≠ c) (a :: t) =
          a :: List.filter (fun x => x ≠ c) t := by
        simp [List.filter_cons, hac]
      rcases List.mem_cons.mp h with h1 | h1
      · exact absurd h1.symm hac
      · rw [he, List.length_cons, List.length_cons]
        exact Nat.succ_lt_succ (ih h1)

theorem applyCmOp_bound (m : ConnMgr) (op : CmOp) :
    (applyCmOp m op).maxThreads = m.maxThreads ∧
    (m.active.length ≤ m.maxThreads →
      (applyCmOp m op).active.length ≤ m.maxThreads) := by
  cases op with
  | add c =>
    by_cases hle : m.maxThreads ≤ m.active.length
    · simp [applyCmOp, addConnection, hle]
    · by_cases hc : c ∈ m.active
      · simp [applyCmOp, addConnection, hle, setAdd, hc]
      · simp [applyCmOp, addConnection, hle, setAdd, hc]
        omega
  | remove c =>
    refine ⟨rfl, fun h => ?_⟩
    exact le_trans (List.length_filter_le _ _) h

/-- C6: admitting a run of fresh connections that fits under the ceiling
succeeds and fills the set accordingly; at or over the ceiling every
further addConnection sends the 503 response carrying the Retry-After
header, returns false, and leaves the set untouched; under any sequence of
add and remove operations the active set never exceeds the ceiling; and
after releasing one admitted connection from a full set, admission succeeds
again. -/
theorem c6_admission_ceiling :
    (∀ (m : ConnMgr) (cs : List Nat), cs.Nodup → (∀ c ∈ cs, c ∉ m.active) →
        m.active.length + cs.length ≤ m.maxThreads →
        (admitSeq m cs).1 = true ∧
        (admitSeq m cs).2.active.length = m.active.length + cs.length)
    ∧ (∀ (m : ConnMgr) (conn : Nat), m.maxThreads ≤ m.active.length →
        addConnection m conn = (false, m, some resp503) ∧
        ("Retry-After", "5") ∈ resp503.headers)
    ∧ (∀ (m : ConnMgr) (ops : List CmOp), m.active.length ≤ m.maxThreads →
        (applyCmOps m ops).active.length ≤ m.maxThreads)
    ∧ (∀ (m : ConnMgr) (c c2 : Nat), m.active.length ≤ m.maxThreads →
        c ∈ m.active → (addConnection (removeConnection m c) c2).1 = true) := by
  refine ⟨?_, ?_, ?_, ?_⟩
  · intro m cs
    induction cs generalizing m with
    | nil =>
      intro _ _ _
      simp [admitSeq]
    | cons c cs ih =>
      intro hnd hnotin hlen
      have hc : c ∉ m.active := hnotin c (by simp)
      have hceil : ¬ m.maxThreads ≤ m.active.length := by
        simp only [List.length_cons] at hlen
        omega
      have hadd : addConnection m c =
          (true, { m with active := c :: m.active }, none) := by
        simp [addConnection, hceil, setAdd, hc]
      have hrest := ih { m with active := c :: m.active }
        (List.nodup_cons.mp hnd).2
        (by
          intro c' hc'
          simp only [List.mem_cons, not_or]
          exact ⟨fun he => (List.nodup_cons.mp hnd).1 (he ▸ hc'),
            hnotin c' (List.mem_cons_of_mem c hc')⟩)
        (by simp only [List.length_cons] at hlen ⊢; omega)
      have heq : admitSeq m (c :: cs) =
          admitSeq { m with active := c :: m.active } cs := by
        simp [admitSeq, hadd]
      rw [heq]
      refine ⟨hrest.1, ?_⟩
      rw [hrest.2]
      simp only [List.length_cons]
      omega
  · intro m conn h
    refine ⟨?_, by simp [resp503]⟩
    simp [addConnection, h]
  · intro m ops
    induction ops generalizing m with
    | nil => intro h; simpa [applyCmOps] using h
    | cons op ops ih =>
      intro h
      have hb := applyCmOp_bound m op
      have := ih (applyCmOp m op) (by rw [hb.1]; exact hb.2 h)
      simpa [applyCmOps, hb.1] using this
  · intro m c c2 hlen hmem
    have hlt : (m.active.filter (fun x => x ≠ c)).length < m.maxThreads :=
      lt_of_lt_of_le (length_filter_ne_lt m.active c hmem) hlen
    simp only [addConnection, removeConnection]
    rw [if_neg (Nat.not_le.mpr hlt)]

/-- C6 witness: the admission theorem applied with ceiling 2 to two fresh
connections, to a full manager, to a concrete operation sequence, and to a
release followed by a new admission. -/
theorem c6_admission_ceiling_witness :
    ((admitSeq ⟨[], 2⟩ [10, 11]).1 = true ∧
      (admitSeq ⟨[], 2⟩ [10, 11]).2.active.length = 2) ∧
    (addConnection ⟨[1, 2], 2⟩ 3 = (false, ⟨[1, 2], 2⟩, some resp503) ∧
      ("Retry-After", "5") ∈ resp503.headers) ∧
    (applyCmOps ⟨[1], 2⟩ [.add 2, .add 3, .remove 1]).active.length ≤ 2 ∧
    (addConnection (removeConnection ⟨[1, 2], 2⟩ 1) 3).1 = true := by
  refine ⟨?_, c6_admission_ceiling.2.1 ⟨[1, 2], 2⟩ 3 (by decide),
    c6_admission_ceiling.2.2.1 ⟨[1], 2⟩ [.add 2, .add 3, .remove 1] (by decide),
    c6_admission_ceiling.2.2.2 ⟨[1, 2], 2⟩ 1 3 (by decide) (by decide)⟩
  have := c6_admission_ceiling.1 ⟨[], 2⟩ [10, 11] (by decide) (by decide) (by decide)
  simpa using this

end LSP
